import Mathlib

/-!
Shallow embedding of `src/sketch.js`, a hand-gesture "Simon says" piano game
built on p5.js.  The sketch is a single event loop (`draw`) over mutable
globals, plus `setTimeout`-scheduled callbacks.  We model:

* the mutable globals as a `GameState` record;
* `millis()` as an explicit `now : Nat` argument (milliseconds);
* p5's `random(0, numKeys)` as an oracle `rnd : Nat → ℚ` supplying the i-th
  value drawn during one call site; the p5 contract guarantees each value
  lies in `[0, numKeys)`, which appears as a hypothesis where needed, and
  `floor` is `Int.floor`;
* `setTimeout(f, d)` as emission of a `(d, TimerAction)` pair; a pending
  timer firing is `applyTimer`;
* side effects (sound playback, canvas drawing) as explicit output lists.

JS `Number` coordinates are modelled as `ℚ` (all arithmetic the sketch does
on them is exact decimal arithmetic), note indices as `ℤ` (results of
`Math.floor`), and pressed-key indices as `Nat` (loop counters).
-/

namespace Sketch

/-- Canvas / video width (`var w = 640`). -/
def w : ℚ := 640

/-- Canvas / video height (`var h = 480`). -/
def h : ℚ := 480

/-- Number of piano keys (`let numKeys = 8`). -/
def numKeys : Nat := 8

/-- Width of a white key, `whiteKeyWidth = w / numKeys` (computed in `setup`). -/
def whiteKeyWidth : ℚ := w / numKeys

/-- Height of a white key, `whiteKeyHeight = h / 3` (computed in `setup`). -/
def whiteKeyHeight : ℚ := h / 3

/-- Width of a black key, `blackKeyWidth = whiteKeyWidth * 0.6`. -/
def blackKeyWidth : ℚ := whiteKeyWidth * (6 / 10)

/-- Height of a black key, `blackKeyHeight = whiteKeyHeight * 0.7`. -/
def blackKeyHeight : ℚ := whiteKeyHeight * (7 / 10)

/-- Debounce interval in ms, `let debounceTime = 500`. -/
def debounceTime : Nat := 500

/-- An RGB colour, as produced by p5's `color`. -/
abbrev Color := Nat × Nat × Nat

/-- White, `color(255)`. -/
def white : Color := (255, 255, 255)

/-- Blue, `color(0, 0, 255)` (highlight colour). -/
def blue : Color := (0, 0, 255)

/-- The sketch's mutable globals that the game logic reads or writes. -/
structure GameState where
  /-- The target sequence of note indices (`gameSequence`). -/
  gameSequence : List ℤ
  /-- The player's correctly-matched presses so far (`playerSequence`). -/
  playerSequence : List ℤ
  /-- Cursor into `gameSequence` for matching (`currentNoteIndex`). -/
  currentNoteIndex : Nat
  /-- True while the demo replay is scheduled or under way (`sequencePlaying`). -/
  sequencePlaying : Bool
  /-- The difficulty level, starting at 1 (`sequenceLength`). -/
  sequenceLength : Nat
  /-- Transient feedback text, empty when none (`message`). -/
  message : String
  /-- Timestamp from `millis()` of the last accepted press (`lastKeyPressTime`). -/
  lastKeyPressTime : Nat
  /-- Whether each key `j` is currently held (`isKeyPressed[j]`). -/
  isKeyPressed : List Bool
  /-- Current fill colour of each white key `j` (`keyColors[j]`). -/
  keyColors : List Color
  /-- Global `a` (red component used by `displayMessage`). -/
  a : Nat
  /-- Global `b` (green component used by `displayMessage`). -/
  b : Nat
  /-- Global `c` (blue component used by `displayMessage`). -/
  c : Nat
  deriving Repr, DecidableEq

/-- A callback passed to `setTimeout`; paired with its delay in ms. -/
inductive TimerAction where
  /-- Target of `setTimeout(playSequence, 2000)`. -/
  | runPlaySequence
  /-- The revert-to-white closure for key `j` set on an accepted press. -/
  | revertKey (j : Nat)
  /-- The message-clearing closure armed for 1000 ms after a message is set. -/
  | clearMessage
  /-- A per-note closure scheduled by `playSequence` at `i * delay`. -/
  | playNote (n : ℤ)
  /-- The revert closure scheduled 500 ms after a replayed note. -/
  | revertNote (n : ℤ)
  /-- The closure clearing `sequencePlaying` after the replay. -/
  | clearSequencePlaying
  deriving Repr, DecidableEq

/-- One drawing operation issued during a frame. -/
inductive RenderOp where
  /-- Clearing of the canvas, `background(0)`. -/
  | background
  /-- The mirrored `image(capture, ...)` blit. -/
  | camera
  /-- Call of `drawPiano()`, recording the white-key colours it paints. -/
  | piano (colors : List Color)
  /-- The level line, `text('Level ...', ...)`. -/
  | levelText (lvl : Nat)
  /-- The static instruction line. -/
  | instructions
  /-- Output of `displayMessage(msg)` with the `fill(a, b, c)` colour it uses. -/
  | messageText (msg : String) (col : Color)
  deriving Repr, DecidableEq

/-- The function `generateSequence()`: rebuilds `gameSequence` from `sequenceLength`
fresh draws of `floor(random(0, numKeys))`, clears the player's attempt
and cursor, marks the replay pending, and schedules `playSequence` in
2000 ms. -/
def generateSequence (rnd : Nat → ℚ) (s : GameState) :
    GameState × List (Nat × TimerAction) :=
  ({ s with
      gameSequence := (List.range s.sequenceLength).map fun i => Int.floor (rnd i)
      playerSequence := []
      currentNoteIndex := 0
      sequencePlaying := true },
   [(2000, .runPlaySequence)])

/-- The function `checkVictory()`: on full-sequence equality (`JSON.stringify` equality
of integer arrays is list equality), bump the level, regenerate, and show
the level-up message for 1000 ms. -/
def checkVictory (rnd : Nat → ℚ) (s : GameState) :
    GameState × List (Nat × TimerAction) :=
  if s.playerSequence = s.gameSequence then
    let s1 := { s with sequenceLength := s.sequenceLength + 1 }
    let r := generateSequence rnd s1
    ({ r.1 with message := "Correct! Level Up!" }, r.2 ++ [(1000, .clearMessage)])
  else
    (s, [])

/-- The function `checkLoss()`: reset the level to 1, regenerate, and show the
wrong-key message for 1000 ms. -/
def checkLoss (rnd : Nat → ℚ) (s : GameState) :
    GameState × List (Nat × TimerAction) :=
  let s1 := { s with sequenceLength := 1 }
  let r := generateSequence rnd s1
  ({ r.1 with message := "Wrong Key!" }, r.2 ++ [(1000, .clearMessage)])

/-- The containment test of `draw` for fingertip `pt` over white key `j`:
`correctedX > whiteKeyX && correctedX < whiteKeyX + whiteKeyWidth &&
keypoint.y > whiteKeyY && keypoint.y < whiteKeyHeight` with
`correctedX = w - keypoint.x` and `whiteKeyY = 0`. -/
def overWhiteKey (pt : ℚ × ℚ) (j : Nat) : Bool :=
  let correctedX := w - pt.1
  decide (j * whiteKeyWidth < correctedX) &&
  decide (correctedX < j * whiteKeyWidth + whiteKeyWidth) &&
  decide (0 < pt.2) &&
  decide (pt.2 < whiteKeyHeight)

/-- Accumulated effects of the in-frame key scan. -/
structure Acc where
  /-- The game state as mutated so far this frame. -/
  st : GameState
  /-- Timers armed so far this frame (delay in ms, callback). -/
  timers : List (Nat × TimerAction)
  /-- Notes played so far this frame (`notes[j].play()`). -/
  sounds : List ℤ
  /-- Accepted presses so far this frame, as (`millis()`, key) pairs. -/
  accepted : List (Nat × Nat)
  deriving Repr, DecidableEq

/-- The body run when a press of key `j` is accepted (fingertip over the
key, key not already held, debounce elapsed): mark the key held, stamp
`lastKeyPressTime`, highlight, then match against
`gameSequence[currentNoteIndex]` — on a match append and advance, calling
`checkVictory` when the attempt reaches full length; on a mismatch call
`checkLoss`.  Returns the new state and the timers armed by the
victory/loss path. -/
def acceptPress (rnd : Nat → ℚ) (now : Nat) (j : Nat) (s : GameState) :
    GameState × List (Nat × TimerAction) :=
  let s1 := { s with
    isKeyPressed := s.isKeyPressed.set j true
    lastKeyPressTime := now
    keyColors := s.keyColors.set j blue }
  if s1.gameSequence[s1.currentNoteIndex]? = some (j : ℤ) then
    let s2 := { s1 with
      playerSequence := s1.playerSequence ++ [(j : ℤ)]
      currentNoteIndex := s1.currentNoteIndex + 1 }
    if s2.playerSequence.length = s2.gameSequence.length then
      checkVictory rnd s2
    else
      (s2, [])
  else
    checkLoss rnd s1

/-- The body of `draw`'s inner key loop for one fingertip `pt` and one key
index `j`: hit-test and debounce, then either run the accepted-press body
(also playing `notes[j]`, arming the 500 ms colour revert and recording the
accepted press) or, when the fingertip is elsewhere, release the key. -/
def stepKey (rnd : Nat → ℚ) (now : Nat) (pt : ℚ × ℚ) (j : Nat) (acc : Acc) :
    Acc :=
  let s := acc.st
  if overWhiteKey pt j then
    if s.isKeyPressed.getD j false = false ∧
        debounceTime < now - s.lastKeyPressTime then
      let r := acceptPress rnd now j s
      { st := r.1
        timers := acc.timers ++ [(500, .revertKey j)] ++ r.2
        sounds := acc.sounds ++ [(j : ℤ)]
        accepted := acc.accepted ++ [(now, j)] }
    else
      acc
  else
    { acc with st := { s with isKeyPressed := s.isKeyPressed.set j false } }

/-- The key loop of `draw` for one detected fingertip. -/
def scanHand (rnd : Nat → ℚ) (now : Nat) (pt : ℚ × ℚ) (acc : Acc) : Acc :=
  (List.range numKeys).foldl (fun a j => stepKey rnd now pt j a) acc

/-- The hand loop of `draw`: each hand contributes its index fingertip
(keypoint 8) position. -/
def scanHands (rnd : Nat → ℚ) (now : Nat) (hands : List (ℚ × ℚ)) (acc : Acc) :
    Acc :=
  hands.foldl (fun a pt => scanHand rnd now pt a) acc

/-- All observable effects of one `draw` call. -/
structure FrameResult where
  /-- The game state at the end of the frame. -/
  state : GameState
  /-- Drawing operations, in issue order. -/
  renders : List RenderOp
  /-- Timers armed during the frame. -/
  timers : List (Nat × TimerAction)
  /-- Notes played during the frame. -/
  sounds : List ℤ
  /-- Accepted presses, as (`millis()`, key) pairs. -/
  accepted : List (Nat × Nat)
  deriving Repr, DecidableEq

/-- The function `displayMessage(msg)`: pick the tint from the message text, fill with
`(a, b, c)`, draw, then zero `a` and `b`. -/
def displayMessage (s : GameState) : GameState × RenderOp :=
  let b1 := if s.message = "Correct! Level Up!" then 255 else s.b
  let a1 := if s.message = "Correct! Level Up!" then s.a else 255
  ({ s with a := 0, b := 0 }, .messageText s.message (a1, b1, s.c))

/-- One `draw` frame: clear the background; if a message is active show only
it and return; otherwise blit the camera, draw the piano (with the colours
current at that moment), run the hand/key scan, and draw the level and
instruction text (the level read after the scan, as in the source). -/
def drawFrame (rnd : Nat → ℚ) (now : Nat) (hands : List (ℚ × ℚ))
    (s : GameState) : FrameResult :=
  if s.message ≠ "" then
    let m := displayMessage s
    { state := m.1
      renders := [.background, m.2]
      timers := []
      sounds := []
      accepted := [] }
  else
    let acc := scanHands rnd now hands ⟨s, [], [], []⟩
    { state := acc.st
      renders := [.background, .camera, .piano s.keyColors,
                  .levelText acc.st.sequenceLength, .instructions]
      timers := acc.timers
      sounds := acc.sounds
      accepted := acc.accepted }

/-- The timers armed by `playSequence()`: note `i` of the sequence at
`i * 500` ms, and the `sequencePlaying = false` closure at
`gameSequence.length * 500` ms. -/
def playSequenceSchedule (seq : List ℤ) : List (Nat × TimerAction) :=
  (List.range seq.length).map (fun i => (i * 500, TimerAction.playNote (seq.getD i 0)))
    ++ [(seq.length * 500, .clearSequencePlaying)]

/-- Effects of one pending timer firing. -/
structure TickResult where
  /-- The game state after the callback. -/
  state : GameState
  /-- Timers armed by the callback. -/
  timers : List (Nat × TimerAction)
  /-- Notes played by the callback. -/
  sounds : List ℤ
  deriving Repr, DecidableEq

/-- Firing one scheduled callback.  `playNote n` plays `notes[n]`, paints
key `n` blue and schedules its revert in 500 ms (indices coming from
`gameSequence` are in-range integers; `Int.toNat` casts them back to list
positions). -/
def applyTimer (act : TimerAction) (s : GameState) : TickResult :=
  match act with
  | .runPlaySequence => ⟨s, playSequenceSchedule s.gameSequence, []⟩
  | .revertKey j => ⟨{ s with keyColors := s.keyColors.set j white }, [], []⟩
  | .clearMessage => ⟨{ s with message := "" }, [], []⟩
  | .playNote n =>
      ⟨{ s with keyColors := s.keyColors.set n.toNat blue },
       [(500, .revertNote n)], [n]⟩
  | .revertNote n => ⟨{ s with keyColors := s.keyColors.set n.toNat white }, [], []⟩
  | .clearSequencePlaying => ⟨{ s with sequencePlaying := false }, [], []⟩

/-- The globals as they stand when `setup` runs (after `preload` filled
`isKeyPressed` and `keyColors`). -/
def initialState : GameState where
  gameSequence := []
  playerSequence := []
  currentNoteIndex := 0
  sequencePlaying := false
  sequenceLength := 1
  message := ""
  lastKeyPressTime := 0
  isKeyPressed := List.replicate numKeys false
  keyColors := List.replicate numKeys white
  a := 0
  b := 0
  c := 0

/-- The game-visible effect of `setup()`: the initial `generateSequence()` call. -/
def setup (rnd : Nat → ℚ) : GameState × List (Nat × TimerAction) :=
  generateSequence rnd initialState

/-- White key `i`'s rectangle as drawn by `drawPiano`:
`rect(i * whiteKeyWidth, 0, whiteKeyWidth, whiteKeyHeight)`,
as (x, y, width, height). -/
def whiteKeyRect (i : Nat) : ℚ × ℚ × ℚ × ℚ :=
  (i * whiteKeyWidth, 0, whiteKeyWidth, whiteKeyHeight)

/-- The loop indices `i` at which `drawPiano` draws a black key:
`0 ≤ i < numKeys - 1` with `i ≠ 2` and `i ≠ 6`. -/
def blackKeyIndices : List Nat :=
  (List.range (numKeys - 1)).filter fun i => i ≠ 2 ∧ i ≠ 6

/-- Black key rectangle for loop index `i`:
`rect((i+1) * whiteKeyWidth - blackKeyWidth / 2, 0, blackKeyWidth,
blackKeyHeight)`. -/
def blackKeyRect (i : Nat) : ℚ × ℚ × ℚ × ℚ :=
  ((i + 1) * whiteKeyWidth - blackKeyWidth / 2, 0, blackKeyWidth, blackKeyHeight)

/-- The white-key boundary numbers (boundary `k` sits at `x = k *
whiteKeyWidth`, between white keys `k-1` and `k`) on which `drawPiano`
centres a black key. -/
def blackKeyBoundaries : List Nat :=
  blackKeyIndices.map (· + 1)

/-- A concrete mid-game state used to instantiate theorems: level 1 with
target sequence `[3]`, no presses yet. -/
def testState : GameState where
  gameSequence := [3]
  playerSequence := []
  currentNoteIndex := 0
  sequencePlaying := false
  sequenceLength := 1
  message := ""
  lastKeyPressTime := 0
  isKeyPressed := List.replicate numKeys false
  keyColors := List.replicate numKeys white
  a := 0
  b := 0
  c := 0

/-- A fixed oracle for instantiating theorems: every draw returns 0. -/
def zeroOracle : Nat → ℚ := fun _ => 0

/-! ### The step-boundary invariant -/

/-- The state invariant at step boundaries of the game loop: the player's
attempt is a prefix of the target, the match cursor equals the attempt's
length, the target's length is the level, and the level is at least 1. -/
def Inv (s : GameState) : Prop :=
  s.playerSequence <+: s.gameSequence ∧
  s.currentNoteIndex = s.playerSequence.length ∧
  s.gameSequence.length = s.sequenceLength ∧
  1 ≤ s.sequenceLength

instance (s : GameState) : Decidable (Inv s) := by
  unfold Inv; infer_instance

theorem prefix_snoc {l1 l2 : List ℤ} {x : ℤ} (hp : l1 <+: l2)
    (hx : l2[l1.length]? = some x) : l1 ++ [x] <+: l2 := by
  obtain ⟨t, rfl⟩ := hp
  rw [List.getElem?_append_right (le_refl l1.length), Nat.sub_self] at hx
  cases t with
  | nil => simp at hx
  | cons y t' =>
      simp only [List.getElem?_cons_zero, Option.some.injEq] at hx
      subst hx
      exact ⟨t', by simp⟩

theorem inv_generateSequence (rnd : Nat → ℚ) (s : GameState)
    (h1 : 1 ≤ s.sequenceLength) : Inv (generateSequence rnd s).1 :=
  ⟨ List.nil_prefix, rfl, by simp [generateSequence], h1⟩

theorem inv_checkVictory (rnd : Nat → ℚ) (s : GameState) (h : Inv s) :
    Inv (checkVictory rnd s).1 := by
  by_cases hv : s.playerSequence = s.gameSequence
  · show Inv (if _ then _ else _ : GameState × _).1
    rw [if_pos hv]
    exact inv_generateSequence rnd
      { s with sequenceLength := s.sequenceLength + 1 } (Nat.le_add_left 1 _)
  · show Inv (if _ then _ else _ : GameState × _).1
    rw [if_neg hv]
    exact h

theorem inv_checkLoss (rnd : Nat → ℚ) (s : GameState) :
    Inv (checkLoss rnd s).1 :=
  inv_generateSequence rnd { s with sequenceLength := 1 } le_rfl

theorem inv_acceptPress (rnd : Nat → ℚ) (now j : Nat) (s : GameState)
    (h : Inv s) : Inv (acceptPress rnd now j s).1 := by
  simp only [acceptPress]
  split
  case isTrue hm =>
    split
    case isTrue hc =>
      refine inv_checkVictory rnd _ ?_
      refine ⟨prefix_snoc h.1 ?_, by simp [h.2.1], h.2.2.1, h.2.2.2⟩
      rw [← h.2.1]; exact hm
    case isFalse hc =>
      refine ⟨prefix_snoc h.1 ?_, by simp [h.2.1], h.2.2.1, h.2.2.2⟩
      rw [← h.2.1]; exact hm
  case isFalse hm =>
    exact inv_checkLoss rnd _

theorem foldl_preserve {α β : Type} (P : α → Prop) (f : β → α → α)
    (hf : ∀ x a, P a → P (f x a)) :
    ∀ (l : List β) (a : α), P a → P (l.foldl (fun a x => f x a) a) := by
  intro l
  induction l with
  | nil => exact fun a ha => ha
  | cons x xs ih => exact fun a ha => ih _ (hf x a ha)

theorem inv_stepKey (rnd : Nat → ℚ) (now : Nat) (pt : ℚ × ℚ) (j : Nat)
    (acc : Acc) (h : Inv acc.st) : Inv (stepKey rnd now pt j acc).st := by
  simp only [stepKey]
  split
  · split
    · exact inv_acceptPress rnd now j acc.st h
    · exact h
  · exact h

theorem inv_scanHands (rnd : Nat → ℚ) (now : Nat) (hands : List (ℚ × ℚ))
    (acc : Acc) (h : Inv acc.st) : Inv (scanHands rnd now hands acc).st :=
  foldl_preserve (fun a => Inv a.st) (fun pt a => scanHand rnd now pt a)
    (fun pt a ha =>
      foldl_preserve (fun a => Inv a.st) (fun j a => stepKey rnd now pt j a)
        (fun j a hj => inv_stepKey rnd now pt j a hj) (List.range numKeys) a ha)
    hands acc h

theorem inv_drawFrame (rnd : Nat → ℚ) (now : Nat) (hands : List (ℚ × ℚ))
    (s : GameState) (h : Inv s) : Inv (drawFrame rnd now hands s).state := by
  simp only [drawFrame]
  split
  · exact h
  · exact inv_scanHands rnd now hands ⟨s, [], [], []⟩ h

theorem inv_applyTimer (act : TimerAction) (s : GameState) (h : Inv s) :
    Inv (applyTimer act s).state := by
  cases act <;> exact h

/-! ### Length and cursor invariants -/

/-- The target sequence's length always equals the level. -/
def LenInv (s : GameState) : Prop :=
  s.gameSequence.length = s.sequenceLength

instance (s : GameState) : Decidable (LenInv s) := by
  unfold LenInv; infer_instance

/-- The match cursor always equals the attempt's length. -/
def CursorInv (s : GameState) : Prop :=
  s.currentNoteIndex = s.playerSequence.length

instance (s : GameState) : Decidable (CursorInv s) := by
  unfold CursorInv; infer_instance

theorem len_generateSequence (rnd : Nat → ℚ) (s : GameState) :
    LenInv (generateSequence rnd s).1 := by
  simp [LenInv, generateSequence]

theorem len_checkVictory (rnd : Nat → ℚ) (s : GameState) (h : LenInv s) :
    LenInv (checkVictory rnd s).1 := by
  by_cases hv : s.playerSequence = s.gameSequence
  · show LenInv (if _ then _ else _ : GameState × _).1
    rw [if_pos hv]
    exact len_generateSequence rnd _
  · show LenInv (if _ then _ else _ : GameState × _).1
    rw [if_neg hv]
    exact h

theorem len_checkLoss (rnd : Nat → ℚ) (s : GameState) :
    LenInv (checkLoss rnd s).1 :=
  len_generateSequence rnd _

theorem len_acceptPress (rnd : Nat → ℚ) (now j : Nat) (s : GameState)
    (h : LenInv s) : LenInv (acceptPress rnd now j s).1 := by
  simp only [acceptPress]
  split
  · split
    · exact len_checkVictory rnd _ h
    · exact h
  · exact len_checkLoss rnd _

theorem len_stepKey (rnd : Nat → ℚ) (now : Nat) (pt : ℚ × ℚ) (j : Nat)
    (acc : Acc) (h : LenInv acc.st) : LenInv (stepKey rnd now pt j acc).st := by
  simp only [stepKey]
  split
  · split
    · exact len_acceptPress rnd now j acc.st h
    · exact h
  · exact h

theorem len_scanHands (rnd : Nat → ℚ) (now : Nat) (hands : List (ℚ × ℚ))
    (acc : Acc) (h : LenInv acc.st) : LenInv (scanHands rnd now hands acc).st :=
  foldl_preserve (fun a => LenInv a.st) (fun pt a => scanHand rnd now pt a)
    (fun pt a ha =>
      foldl_preserve (fun a => LenInv a.st) (fun j a => stepKey rnd now pt j a)
        (fun j a hj => len_stepKey rnd now pt j a hj) (List.range numKeys) a ha)
    hands acc h

theorem len_drawFrame (rnd : Nat → ℚ) (now : Nat) (hands : List (ℚ × ℚ))
    (s : GameState) (h : LenInv s) : LenInv (drawFrame rnd now hands s).state := by
  simp only [drawFrame]
  split
  · exact h
  · exact len_scanHands rnd now hands ⟨s, [], [], []⟩ h

theorem len_applyTimer (act : TimerAction) (s : GameState) (h : LenInv s) :
    LenInv (applyTimer act s).state := by
  cases act <;> exact h

theorem cursor_generateSequence (rnd : Nat → ℚ) (s : GameState) :
    CursorInv (generateSequence rnd s).1 :=
  rfl

theorem cursor_checkVictory (rnd : Nat → ℚ) (s : GameState) (h : CursorInv s) :
    CursorInv (checkVictory rnd s).1 := by
  by_cases hv : s.playerSequence = s.gameSequence
  · show CursorInv (if _ then _ else _ : GameState × _).1
    rw [if_pos hv]
    exact cursor_generateSequence rnd { s with sequenceLength := s.sequenceLength + 1 }
  · show CursorInv (if _ then _ else _ : GameState × _).1
    rw [if_neg hv]
    exact h

theorem cursor_checkLoss (rnd : Nat → ℚ) (s : GameState) :
    CursorInv (checkLoss rnd s).1 :=
  cursor_generateSequence rnd { s with sequenceLength := 1 }

theorem cursor_acceptPress (rnd : Nat → ℚ) (now j : Nat) (s : GameState)
    (h : CursorInv s) : CursorInv (acceptPress rnd now j s).1 := by
  have h' : s.currentNoteIndex = s.playerSequence.length := h
  simp only [acceptPress]
  split
  · split
    · exact cursor_checkVictory rnd _ (by simp [CursorInv, h'])
    · simp [CursorInv, h']
  · exact cursor_checkLoss rnd _

theorem cursor_stepKey (rnd : Nat → ℚ) (now : Nat) (pt : ℚ × ℚ) (j : Nat)
    (acc : Acc) (h : CursorInv acc.st) :
    CursorInv (stepKey rnd now pt j acc).st := by
  simp only [stepKey]
  split
  · split
    · exact cursor_acceptPress rnd now j acc.st h
    · exact h
  · exact h

theorem cursor_scanHands (rnd : Nat → ℚ) (now : Nat) (hands : List (ℚ × ℚ))
    (acc : Acc) (h : CursorInv acc.st) :
    CursorInv (scanHands rnd now hands acc).st :=
  foldl_preserve (fun a => CursorInv a.st) (fun pt a => scanHand rnd now pt a)
    (fun pt a ha =>
      foldl_preserve (fun a => CursorInv a.st) (fun j a => stepKey rnd now pt j a)
        (fun j a hj => cursor_stepKey rnd now pt j a hj) (List.range numKeys) a ha)
    hands acc h

theorem cursor_drawFrame (rnd : Nat → ℚ) (now : Nat) (hands : List (ℚ × ℚ))
    (s : GameState) (h : CursorInv s) :
    CursorInv (drawFrame rnd now hands s).state := by
  simp only [drawFrame]
  split
  · exact h
  · exact cursor_scanHands rnd now hands ⟨s, [], [], []⟩ h

theorem cursor_applyTimer (act : TimerAction) (s : GameState) (h : CursorInv s) :
    CursorInv (applyTimer act s).state := by
  cases act <;> exact h

/-! ### Theorems -/

/-- C2: For every level L ≥ 1, calling the sequence generator when the
current level is L produces a `gameSequence` of length exactly L whose
every element is an integer in `[0, numKeys)`, and it resets
`playerSequence` to empty and the match cursor to 0.  The range of the
elements rests on p5's contract that `random(0, numKeys)` returns values
in `[0, numKeys)`. -/
theorem claim2_generate_length_range (rnd : Nat → ℚ) (s : GameState)
    (hrnd : ∀ i, 0 ≤ rnd i ∧ rnd i < (numKeys : ℚ))
    (hL : 1 ≤ s.sequenceLength) :
    (generateSequence rnd s).1.gameSequence.length = s.sequenceLength ∧
    (∀ x ∈ (generateSequence rnd s).1.gameSequence,
        0 ≤ x ∧ x < (numKeys : ℤ)) ∧
    (generateSequence rnd s).1.playerSequence = [] ∧
    (generateSequence rnd s).1.currentNoteIndex = 0 := by
  refine ⟨by simp [generateSequence], ?_, rfl, rfl⟩
  intro x hx
  simp only [generateSequence, List.mem_map, List.mem_range] at hx
  obtain ⟨i, -, rfl⟩ := hx
  refine ⟨Int.floor_nonneg.mpr (hrnd i).1, ?_⟩
  rw [Int.floor_lt]
  exact_mod_cast (hrnd i).2

/-- Witness for C2 at the constant-zero oracle and the startup state. -/
theorem claim2_witness :
    (∀ i : Nat, 0 ≤ (0 : ℚ) ∧ (0 : ℚ) < (numKeys : ℚ)) ∧
    1 ≤ initialState.sequenceLength ∧
    ((generateSequence (fun _ => 0) initialState).1.gameSequence.length =
        initialState.sequenceLength ∧
      (∀ x ∈ (generateSequence (fun _ => 0) initialState).1.gameSequence,
          0 ≤ x ∧ x < (numKeys : ℤ)) ∧
      (generateSequence (fun _ => 0) initialState).1.playerSequence = [] ∧
      (generateSequence (fun _ => 0) initialState).1.currentNoteIndex = 0) :=
  ⟨fun _ => ⟨le_refl 0, by norm_num [numKeys]⟩, by decide,
   claim2_generate_length_range (fun _ => 0) initialState
     (fun _ => ⟨le_refl 0, by norm_num [numKeys]⟩) (by decide)⟩

/-- C4 (counterexample): the claim places black keys at white-key
boundaries 1, 3, 4, 5, 7; in the code, boundary 3 carries no black key
while boundary 2 does, so the code's boundary set is {1, 2, 4, 5, 6}. -/
theorem claim4_boundary_counterexample :
    3 ∉ blackKeyBoundaries ∧ 2 ∈ blackKeyBoundaries ∧
    blackKeyBoundaries ≠ [1, 3, 4, 5, 7] := by
  decide

/-- C4 (amended): for numKeys = 8 and canvas width W = 640, white key j's
rectangle spans x from j·W/8 to (j+1)·W/8 over the top third of the
canvas, and black keys are centred on white-key boundaries 1, 2, 4, 5, 6 —
the loop skips indices 2 and 6, whose black keys would sit on boundaries
3 and 7. -/
theorem claim4_layout (j : Nat) (hj : j < numKeys) :
    (whiteKeyRect j).1 = j * (w / 8) ∧
    (whiteKeyRect j).1 + (whiteKeyRect j).2.2.1 = (j + 1) * (w / 8) ∧
    (whiteKeyRect j).2.1 = 0 ∧
    (whiteKeyRect j).2.2.2 = h / 3 ∧
    (∀ i ∈ blackKeyIndices,
        (blackKeyRect i).1 + blackKeyWidth / 2 = (i + 1) * whiteKeyWidth) ∧
    blackKeyBoundaries = [1, 2, 4, 5, 6] := by
  refine ⟨?_, ?_, rfl, rfl, ?_, by decide⟩
  · simp [whiteKeyRect, whiteKeyWidth, w, numKeys]
  · show (j : ℚ) * whiteKeyWidth + whiteKeyWidth = _
    norm_num [whiteKeyWidth, w, numKeys]
    ring
  · intro i _
    show (i + 1 : ℚ) * whiteKeyWidth - blackKeyWidth / 2 + blackKeyWidth / 2 = _
    ring

/-- Witness for C4 at key 0. -/
theorem claim4_witness :
    0 < numKeys ∧
    ((whiteKeyRect 0).1 = 0 * (w / 8) ∧
      (whiteKeyRect 0).1 + (whiteKeyRect 0).2.2.1 = (0 + 1) * (w / 8) ∧
      (whiteKeyRect 0).2.1 = 0 ∧
      (whiteKeyRect 0).2.2.2 = h / 3 ∧
      (∀ i ∈ blackKeyIndices,
          (blackKeyRect i).1 + blackKeyWidth / 2 = (i + 1) * whiteKeyWidth) ∧
      blackKeyBoundaries = [1, 2, 4, 5, 6]) :=
  ⟨by decide, claim4_layout 0 (by decide)⟩

/-- C8: generating a sequence schedules exactly one replay 2000 ms later;
when that timer fires, the replay schedules note i of `gameSequence` at
i·500 ms (in sequence order); each note callback plays its clip,
highlights its key, and schedules a revert 500 ms later, which restores
the key to white. -/
theorem claim8_replay_schedule (rnd : Nat → ℚ) (s s' : GameState)
    (seq : List ℤ) (n : ℤ) (i : Nat) (hi : i < seq.length) :
    (generateSequence rnd s).2 = [(2000, .runPlaySequence)] ∧
    applyTimer .runPlaySequence s' =
      ⟨s', playSequenceSchedule s'.gameSequence, []⟩ ∧
    (playSequenceSchedule seq)[i]? = some (i * 500, .playNote (seq.getD i 0)) ∧
    applyTimer (.playNote n) s' =
      ⟨{ s' with keyColors := s'.keyColors.set n.toNat blue },
       [(500, .revertNote n)], [n]⟩ ∧
    applyTimer (.revertNote n) s' =
      ⟨{ s' with keyColors := s'.keyColors.set n.toNat white }, [], []⟩ := by
  refine ⟨rfl, rfl, ?_, rfl, rfl⟩
  rw [playSequenceSchedule, List.getElem?_append_left (by simpa using hi)]
  simp [hi]

/-- Witness for C8 at the two-note sequence [3, 5], note index 1. -/
theorem claim8_witness :
    1 < ([3, 5] : List ℤ).length ∧
    ((generateSequence (fun _ => 0) initialState).2 =
        [(2000, .runPlaySequence)] ∧
      applyTimer .runPlaySequence initialState =
        ⟨initialState, playSequenceSchedule initialState.gameSequence, []⟩ ∧
      (playSequenceSchedule [3, 5])[1]? =
        some (1 * 500, .playNote (([3, 5] : List ℤ).getD 1 0)) ∧
      applyTimer (.playNote 3) initialState =
        ⟨{ initialState with
            keyColors := initialState.keyColors.set (3 : ℤ).toNat blue },
         [(500, .revertNote 3)], [3]⟩ ∧
      applyTimer (.revertNote 3) initialState =
        ⟨{ initialState with
            keyColors := initialState.keyColors.set (3 : ℤ).toNat white },
         [], []⟩) :=
  ⟨by decide,
   claim8_replay_schedule (fun _ => 0) initialState initialState [3, 5] 3 1
     (by decide)⟩

/-- C1: the step-boundary invariant — `playerSequence` is a prefix of
`gameSequence` of equal-or-lesser length — is established by `setup` and
preserved by every frame and every timer callback; and the moment an
accepted key press differs from `gameSequence[currentNoteIndex]`, the
level resets to 1, the attempt and cursor are cleared, and a fresh
length-1 `gameSequence` is generated. -/
theorem claim1_prefix_and_mismatch_reset (rnd : Nat → ℚ) (now : Nat)
    (hands : List (ℚ × ℚ)) :
    Inv (setup rnd).1 ∧
    (∀ s : GameState, Inv s →
      s.playerSequence <+: s.gameSequence ∧
      s.playerSequence.length ≤ s.gameSequence.length) ∧
    (∀ s : GameState, Inv s → Inv (drawFrame rnd now hands s).state) ∧
    (∀ (act : TimerAction) (s : GameState), Inv s →
      Inv (applyTimer act s).state) ∧
    (∀ (s : GameState) (j : Nat),
      s.gameSequence[s.currentNoteIndex]? ≠ some (j : ℤ) →
      (acceptPress rnd now j s).1.sequenceLength = 1 ∧
      (acceptPress rnd now j s).1.playerSequence = [] ∧
      (acceptPress rnd now j s).1.currentNoteIndex = 0 ∧
      (acceptPress rnd now j s).1.gameSequence.length = 1) := by
  refine ⟨inv_generateSequence rnd initialState le_rfl,
    fun s hs => ⟨hs.1, hs.1.length_le⟩,
    fun s hs => inv_drawFrame rnd now hands s hs,
    fun act s hs => inv_applyTimer act s hs,
    fun s j hm => ?_⟩
  simp only [acceptPress]
  split
  case isTrue hm' => exact absurd hm' hm
  case isFalse hm' =>
    exact ⟨rfl, rfl, rfl, by simp [checkLoss, generateSequence]⟩

/-- Witness for C1: a wrong press (key 0 against target `[3]`) resets the
game to a fresh level-1 state. -/
theorem claim1_witness :
    Inv testState ∧
    testState.gameSequence[testState.currentNoteIndex]? ≠ some ((0 : Nat) : ℤ) ∧
    ((acceptPress zeroOracle 1000 0 testState).1.sequenceLength = 1 ∧
      (acceptPress zeroOracle 1000 0 testState).1.playerSequence = [] ∧
      (acceptPress zeroOracle 1000 0 testState).1.currentNoteIndex = 0 ∧
      (acceptPress zeroOracle 1000 0 testState).1.gameSequence.length = 1) :=
  ⟨by decide, by decide,
   (claim1_prefix_and_mismatch_reset zeroOracle 1000 []).2.2.2.2 testState 0
     (by decide)⟩

/-- C3: when an accepted press matches the expected note and completes a
`gameSequence` of length L (= the level, by the invariant), the level
becomes L + 1, a fresh `gameSequence` of length L + 1 is generated, and
the attempt is reset to empty with cursor 0. -/
theorem claim3_completion_levels_up (rnd : Nat → ℚ) (now : Nat)
    (pt : ℚ × ℚ) (j : Nat) (acc : Acc)
    (hinv : Inv acc.st)
    (hover : overWhiteKey pt j = true)
    (hheld : acc.st.isKeyPressed.getD j false = false)
    (hdeb : debounceTime < now - acc.st.lastKeyPressTime)
    (hm : acc.st.gameSequence[acc.st.currentNoteIndex]? = some (j : ℤ))
    (hc : acc.st.playerSequence.length + 1 = acc.st.gameSequence.length) :
    (stepKey rnd now pt j acc).st.sequenceLength = acc.st.sequenceLength + 1 ∧
    (stepKey rnd now pt j acc).st.gameSequence.length =
      acc.st.sequenceLength + 1 ∧
    (stepKey rnd now pt j acc).st.playerSequence = [] ∧
    (stepKey rnd now pt j acc).st.currentNoteIndex = 0 := by
  simp only [stepKey]
  split
  case isFalse h' => exact absurd hover h'
  case isTrue =>
    split
    case isFalse h' => exact absurd ⟨hheld, hdeb⟩ h'
    case isTrue =>
      show ((acceptPress rnd now j acc.st).1.sequenceLength = _) ∧ _
      simp only [acceptPress]
      split
      case isFalse hm' => exact absurd hm hm'
      case isTrue hm' =>
        split
        case isFalse h' =>
          exact absurd (show (acc.st.playerSequence ++ [(j : ℤ)]).length =
            acc.st.gameSequence.length by simpa using hc) h'
        case isTrue h' =>
          have heq : acc.st.playerSequence ++ [(j : ℤ)] = acc.st.gameSequence :=
            (prefix_snoc hinv.1 (hinv.2.1 ▸ hm)).eq_of_length (by simpa using hc)
          show (checkVictory rnd _).1.sequenceLength = _ ∧ _
          unfold checkVictory
          rw [if_pos heq]
          exact ⟨rfl, by simp [generateSequence], rfl, rfl⟩

/-- Witness for C3: pressing key 3 (fingertip at x = 350, y = 10, i.e.
corrected x = 290) against target `[3]` at level 1 levels up to 2. -/
theorem claim3_witness :
    Inv testState ∧
    overWhiteKey (350, 10) 3 = true ∧
    testState.isKeyPressed.getD 3 false = false ∧
    debounceTime < 1000 - testState.lastKeyPressTime ∧
    testState.gameSequence[testState.currentNoteIndex]? = some ((3 : Nat) : ℤ) ∧
    testState.playerSequence.length + 1 = testState.gameSequence.length ∧
    ((stepKey zeroOracle 1000 (350, 10) 3 ⟨testState, [], [], []⟩).st.sequenceLength =
        testState.sequenceLength + 1 ∧
      (stepKey zeroOracle 1000 (350, 10) 3 ⟨testState, [], [], []⟩).st.gameSequence.length =
        testState.sequenceLength + 1 ∧
      (stepKey zeroOracle 1000 (350, 10) 3 ⟨testState, [], [], []⟩).st.playerSequence = [] ∧
      (stepKey zeroOracle 1000 (350, 10) 3 ⟨testState, [], [], []⟩).st.currentNoteIndex = 0) :=
  ⟨by decide,
   by norm_num [overWhiteKey, whiteKeyWidth, whiteKeyHeight, w, h, numKeys],
   by decide, by decide, by decide, by decide,
   claim3_completion_levels_up zeroOracle 1000 (350, 10) 3
     ⟨testState, [], [], []⟩ (by decide)
     (by norm_num [overWhiteKey, whiteKeyWidth, whiteKeyHeight, w, h, numKeys])
     (by decide) (by decide) (by decide) (by decide)⟩

/-- C7: `gameSequence.length = sequenceLength` holds from `setup` on and is
preserved by sequence generation, victory handling, loss handling, every
frame, and every timer callback. -/
theorem claim7_length_equals_level (rnd : Nat → ℚ) (now : Nat)
    (hands : List (ℚ × ℚ)) :
    LenInv (setup rnd).1 ∧
    (∀ s : GameState, LenInv (generateSequence rnd s).1) ∧
    (∀ s : GameState, LenInv s → LenInv (checkVictory rnd s).1) ∧
    (∀ s : GameState, LenInv (checkLoss rnd s).1) ∧
    (∀ s : GameState, LenInv s → LenInv (drawFrame rnd now hands s).state) ∧
    (∀ (act : TimerAction) (s : GameState), LenInv s →
      LenInv (applyTimer act s).state) :=
  ⟨len_generateSequence rnd initialState,
   fun s => len_generateSequence rnd s,
   fun s hs => len_checkVictory rnd s hs,
   fun s => len_checkLoss rnd s,
   fun s hs => len_drawFrame rnd now hands s hs,
   fun act s hs => len_applyTimer act s hs⟩

/-- Witness for C7: victory handling preserves the length invariant on the
concrete level-1 state with target `[3]`. -/
theorem claim7_witness :
    LenInv testState ∧ LenInv (checkVictory zeroOracle testState).1 :=
  ⟨by decide,
   (claim7_length_equals_level zeroOracle 0 []).2.2.1 testState (by decide)⟩

/-- C10: the match cursor `currentNoteIndex` equals
`playerSequence.length` from `setup` on; initialization, sequence
generation, every frame (in particular every accepted correct press), and
every timer callback preserve the equality. -/
theorem claim10_cursor_equals_attempt_length (rnd : Nat → ℚ) (now : Nat)
    (pt : ℚ × ℚ) (hands : List (ℚ × ℚ)) :
    CursorInv initialState ∧
    CursorInv (setup rnd).1 ∧
    (∀ s : GameState, CursorInv (generateSequence rnd s).1) ∧
    (∀ (j : Nat) (s : GameState), CursorInv s →
      CursorInv (acceptPress rnd now j s).1) ∧
    (∀ s : GameState, CursorInv s → CursorInv (drawFrame rnd now hands s).state) ∧
    (∀ (act : TimerAction) (s : GameState), CursorInv s →
      CursorInv (applyTimer act s).state) :=
  ⟨rfl,
   cursor_generateSequence rnd initialState,
   fun s => cursor_generateSequence rnd s,
   fun j s hs => cursor_acceptPress rnd now j s hs,
   fun s hs => cursor_drawFrame rnd now hands s hs,
   fun act s hs => cursor_applyTimer act s hs⟩

/-- Witness for C10: an accepted correct press of key 3 against target
`[3]` preserves the cursor invariant. -/
theorem claim10_witness :
    CursorInv testState ∧ CursorInv (acceptPress zeroOracle 1000 3 testState).1 :=
  ⟨by decide,
   (claim10_cursor_equals_attempt_length zeroOracle 1000 (0, 0) []).2.2.2.1 3
     testState (by decide)⟩

/-- C6: in any frame where a transient message is active, only the message
is rendered (on the cleared background, tinted green for the level-up
message and red otherwise); no key-press processing, camera rendering, or
keyboard drawing occurs and no game field changes; and the armed
`clearMessage` timer is exactly what clears the message. -/
theorem claim6_message_frame (rnd : Nat → ℚ) (now : Nat)
    (hands : List (ℚ × ℚ)) (s : GameState) (hmsg : s.message ≠ "") :
    (drawFrame rnd now hands s).renders =
      [.background,
       .messageText s.message
         ((if s.message = "Correct! Level Up!" then s.a else 255),
          (if s.message = "Correct! Level Up!" then 255 else s.b),
          s.c)] ∧
    (drawFrame rnd now hands s).accepted = [] ∧
    (drawFrame rnd now hands s).timers = [] ∧
    (drawFrame rnd now hands s).sounds = [] ∧
    (drawFrame rnd now hands s).state =
      { s with a := 0, b := 0 } ∧
    applyTimer .clearMessage s = ⟨{ s with message := "" }, [], []⟩ := by
  simp only [drawFrame, displayMessage]
  rw [if_pos hmsg]
  exact ⟨rfl, rfl, rfl, rfl, rfl, rfl⟩

/-- Witness for C6 on a state showing "Wrong Key!". -/
theorem claim6_witness :
    ({ testState with message := "Wrong Key!" } : GameState).message ≠ "" ∧
    ((drawFrame zeroOracle 1000 [(350, 10)]
        { testState with message := "Wrong Key!" }).renders =
      [.background,
       .messageText ({ testState with message := "Wrong Key!" } :
          GameState).message
         ((if ({ testState with message := "Wrong Key!" } :
              GameState).message = "Correct! Level Up!" then
            ({ testState with message := "Wrong Key!" } : GameState).a
          else 255),
          (if ({ testState with message := "Wrong Key!" } :
              GameState).message = "Correct! Level Up!" then 255
          else ({ testState with message := "Wrong Key!" } : GameState).b),
          ({ testState with message := "Wrong Key!" } : GameState).c)] ∧
      (drawFrame zeroOracle 1000 [(350, 10)]
        { testState with message := "Wrong Key!" }).accepted = [] ∧
      (drawFrame zeroOracle 1000 [(350, 10)]
        { testState with message := "Wrong Key!" }).timers = [] ∧
      (drawFrame zeroOracle 1000 [(350, 10)]
        { testState with message := "Wrong Key!" }).sounds = [] ∧
      (drawFrame zeroOracle 1000 [(350, 10)]
        { testState with message := "Wrong Key!" }).state =
        { ({ testState with message := "Wrong Key!" } : GameState) with
            a := 0, b := 0 } ∧
      applyTimer .clearMessage { testState with message := "Wrong Key!" } =
        ⟨{ ({ testState with message := "Wrong Key!" } : GameState) with
            message := "" }, [], []⟩) :=
  ⟨by decide,
   claim6_message_frame zeroOracle 1000 [(350, 10)]
     { testState with message := "Wrong Key!" } (by decide)⟩

/-! ### Independence of the frame handler from `sequencePlaying` -/

/-- The state `s` with `sequencePlaying` forced to `false`. -/
def mask (s : GameState) : GameState :=
  { s with sequencePlaying := false }

/-- The state `s` with `b` or-ed into `sequencePlaying`. -/
def flagOr (s : GameState) (b : Bool) : GameState :=
  { s with sequencePlaying := s.sequencePlaying || b }

/-- Rebuild an accumulator from a masked run, restoring flag bit `b`. -/
def munge (r : Acc) (b : Bool) : Acc :=
  { r with st := flagOr r.st b }

theorem flagOr_mask (s : GameState) : flagOr (mask s) s.sequencePlaying = s :=
  rfl

theorem munge_munge (r : Acc) (b1 b2 : Bool) :
    munge (munge r b1) b2 = munge r (b1 || b2) := by
  simp [munge, flagOr, Bool.or_assoc]

theorem checkVictory_mask (rnd : Nat → ℚ) (s : GameState) :
    checkVictory rnd s =
      (flagOr (checkVictory rnd (mask s)).1 s.sequencePlaying,
       (checkVictory rnd (mask s)).2) := by
  unfold checkVictory
  by_cases hv : s.playerSequence = s.gameSequence
  · rw [if_pos hv,
      if_pos (show (mask s).playerSequence = (mask s).gameSequence from hv)]
    rfl
  · rw [if_neg hv,
      if_neg (show ¬ (mask s).playerSequence = (mask s).gameSequence from hv)]
    rfl

theorem checkLoss_mask (rnd : Nat → ℚ) (s : GameState) :
    checkLoss rnd s =
      (flagOr (checkLoss rnd (mask s)).1 s.sequencePlaying,
       (checkLoss rnd (mask s)).2) :=
  rfl

theorem acceptPress_mask (rnd : Nat → ℚ) (now j : Nat) (s : GameState) :
    acceptPress rnd now j s =
      (flagOr (acceptPress rnd now j (mask s)).1 s.sequencePlaying,
       (acceptPress rnd now j (mask s)).2) := by
  simp only [acceptPress]
  by_cases hm : s.gameSequence[s.currentNoteIndex]? = some (j : ℤ)
  · rw [if_pos hm,
      if_pos (show (mask s).gameSequence[(mask s).currentNoteIndex]? =
        some (j : ℤ) from hm)]
    by_cases hc : (s.playerSequence ++ [(j : ℤ)]).length = s.gameSequence.length
    · rw [if_pos hc,
        if_pos (show ((mask s).playerSequence ++ [(j : ℤ)]).length =
          (mask s).gameSequence.length from hc)]
      exact checkVictory_mask rnd _
    · rw [if_neg hc,
        if_neg (show ¬ ((mask s).playerSequence ++ [(j : ℤ)]).length =
          (mask s).gameSequence.length from hc)]
      rfl
  · rw [if_neg hm,
      if_neg (show ¬ (mask s).gameSequence[(mask s).currentNoteIndex]? =
        some (j : ℤ) from hm)]
    exact checkLoss_mask rnd _

theorem stepKey_mask (rnd : Nat → ℚ) (now : Nat) (pt : ℚ × ℚ) (j : Nat)
    (s : GameState) (ts : List (Nat × TimerAction)) (sn : List ℤ)
    (ac : List (Nat × Nat)) :
    stepKey rnd now pt j ⟨s, ts, sn, ac⟩ =
      munge (stepKey rnd now pt j ⟨mask s, ts, sn, ac⟩) s.sequencePlaying := by
  simp only [stepKey]
  by_cases hov : overWhiteKey pt j
  · rw [if_pos hov, if_pos hov]
    by_cases hacc : s.isKeyPressed.getD j false = false ∧
        debounceTime < now - s.lastKeyPressTime
    · rw [if_pos hacc,
        if_pos (show (mask s).isKeyPressed.getD j false = false ∧
          debounceTime < now - (mask s).lastKeyPressTime from hacc)]
      rw [acceptPress_mask rnd now j s]
      rfl
    · rw [if_neg hacc,
        if_neg (show ¬ ((mask s).isKeyPressed.getD j false = false ∧
          debounceTime < now - (mask s).lastKeyPressTime) from hacc)]
      rfl
  · rw [if_neg hov, if_neg hov]
    rfl

theorem foldl_mask {β : Type} (f : β → Acc → Acc)
    (hf : ∀ (x : β) (s : GameState) ts sn ac,
      f x ⟨s, ts, sn, ac⟩ = munge (f x ⟨mask s, ts, sn, ac⟩) s.sequencePlaying) :
    ∀ (l : List β) (s : GameState) ts sn ac,
      l.foldl (fun a x => f x a) ⟨s, ts, sn, ac⟩ =
        munge (l.foldl (fun a x => f x a) ⟨mask s, ts, sn, ac⟩)
          s.sequencePlaying := by
  intro l
  induction l with
  | nil =>
      intro s ts sn ac
      show (⟨s, ts, sn, ac⟩ : Acc) = munge ⟨mask s, ts, sn, ac⟩ s.sequencePlaying
      rfl
  | cons x xs ih =>
      intro s ts sn ac
      show xs.foldl _ (f x ⟨s, ts, sn, ac⟩) =
        munge (xs.foldl _ (f x ⟨mask s, ts, sn, ac⟩)) s.sequencePlaying
      rw [hf x s ts sn ac]
      rcases hr : f x ⟨mask s, ts, sn, ac⟩ with ⟨rs, rt, rsn, rac⟩
      show xs.foldl _ (⟨flagOr rs s.sequencePlaying, rt, rsn, rac⟩ : Acc) = _
      rw [ih (flagOr rs s.sequencePlaying) rt rsn rac, ih rs rt rsn rac,
        munge_munge]
      rfl

theorem scanHands_mask (rnd : Nat → ℚ) (now : Nat) (hands : List (ℚ × ℚ))
    (s : GameState) (ts : List (Nat × TimerAction)) (sn : List ℤ)
    (ac : List (Nat × Nat)) :
    scanHands rnd now hands ⟨s, ts, sn, ac⟩ =
      munge (scanHands rnd now hands ⟨mask s, ts, sn, ac⟩) s.sequencePlaying :=
  foldl_mask (fun pt a => scanHand rnd now pt a)
    (fun pt s' ts' sn' ac' =>
      foldl_mask (fun j a => stepKey rnd now pt j a)
        (fun j s'' ts'' sn'' ac'' => stepKey_mask rnd now pt j s'' ts'' sn'' ac'')
        (List.range numKeys) s' ts' sn' ac')
    hands s ts sn ac

theorem drawFrame_mask (rnd : Nat → ℚ) (now : Nat) (hands : List (ℚ × ℚ))
    (s : GameState) :
    drawFrame rnd now hands s =
      { drawFrame rnd now hands (mask s) with
          state := flagOr (drawFrame rnd now hands (mask s)).state
            s.sequencePlaying } := by
  unfold drawFrame
  by_cases hmsg : s.message ≠ ""
  · rw [if_pos hmsg, if_pos (show (mask s).message ≠ "" from hmsg)]
    rfl
  · rw [if_neg hmsg, if_neg (show ¬ (mask s).message ≠ "" from hmsg)]
    rw [scanHands_mask rnd now hands s [] [] []]
    rfl

/-- C9: the frame handler never reads `sequencePlaying` — two frame steps
from states differing only in that flag render the same output, play the
same sounds, arm the same timers, accept exactly the same presses, and
land in states again differing at most in `sequencePlaying`; so a press
during replay is processed exactly like any other press. -/
theorem claim9_input_not_locked_during_replay (rnd : Nat → ℚ) (now : Nat)
    (hands : List (ℚ × ℚ)) (s : GameState) (b1 b2 : Bool) :
    (drawFrame rnd now hands { s with sequencePlaying := b1 }).accepted =
      (drawFrame rnd now hands { s with sequencePlaying := b2 }).accepted ∧
    (drawFrame rnd now hands { s with sequencePlaying := b1 }).renders =
      (drawFrame rnd now hands { s with sequencePlaying := b2 }).renders ∧
    (drawFrame rnd now hands { s with sequencePlaying := b1 }).sounds =
      (drawFrame rnd now hands { s with sequencePlaying := b2 }).sounds ∧
    (drawFrame rnd now hands { s with sequencePlaying := b1 }).timers =
      (drawFrame rnd now hands { s with sequencePlaying := b2 }).timers ∧
    mask (drawFrame rnd now hands { s with sequencePlaying := b1 }).state =
      mask (drawFrame rnd now hands { s with sequencePlaying := b2 }).state := by
  rw [drawFrame_mask rnd now hands { s with sequencePlaying := b1 },
      drawFrame_mask rnd now hands { s with sequencePlaying := b2 }]
  exact ⟨rfl, rfl, rfl, rfl, rfl⟩

/-! ### Debounce: the shared press timer -/

/-- The inputs one `draw` call consumes: fresh randomness, the `millis()`
reading, and the fingertips of the currently detected hands. -/
structure FrameInput where
  /-- Oracle for any `random(0, numKeys)` draws this frame. -/
  rnd : Nat → ℚ
  /-- The `millis()` reading for this frame. -/
  now : Nat
  /-- Index-fingertip positions of the detected hands. -/
  hands : List (ℚ × ℚ)

/-- All accepted presses, as (`millis()`, key) pairs in order, along a run
of frames. -/
def runAccepted : GameState → List FrameInput → List (Nat × Nat)
  | _, [] => []
  | s, f :: fs =>
      (drawFrame f.rnd f.now f.hands s).accepted ++
        runAccepted (drawFrame f.rnd f.now f.hands s).state fs

theorem lastKeyPressTime_checkVictory (rnd : Nat → ℚ) (s : GameState) :
    (checkVictory rnd s).1.lastKeyPressTime = s.lastKeyPressTime := by
  unfold checkVictory
  by_cases hv : s.playerSequence = s.gameSequence
  · rw [if_pos hv]; rfl
  · rw [if_neg hv]

theorem lastKeyPressTime_acceptPress (rnd : Nat → ℚ) (now j : Nat)
    (s : GameState) : (acceptPress rnd now j s).1.lastKeyPressTime = now := by
  simp only [acceptPress]
  split
  · split
    · exact lastKeyPressTime_checkVictory rnd _
    · rfl
  · rfl

theorem debounce_stepKey (rnd : Nat → ℚ) (now : Nat) (pt : ℚ × ℚ) (j : Nat)
    (L : Nat) (A : List (Nat × Nat)) (acc : Acc)
    (h : (acc.st.lastKeyPressTime = L ∧ acc.accepted = A) ∨
      (∃ k, acc.accepted = A ++ [(now, k)] ∧
        acc.st.lastKeyPressTime = now ∧ L + debounceTime < now)) :
    ((stepKey rnd now pt j acc).st.lastKeyPressTime = L ∧
      (stepKey rnd now pt j acc).accepted = A) ∨
    (∃ k, (stepKey rnd now pt j acc).accepted = A ++ [(now, k)] ∧
      (stepKey rnd now pt j acc).st.lastKeyPressTime = now ∧
      L + debounceTime < now) := by
  simp only [stepKey]
  split
  · split
    case isTrue hacc =>
      rcases h with ⟨hl, ha⟩ | ⟨k, ha, hl, hlt⟩
      · right
        refine ⟨j, by simp [ha], lastKeyPressTime_acceptPress rnd now j acc.st, ?_⟩
        have h2 := hacc.2
        rw [hl] at h2
        exact lt_tsub_iff_left.mp h2
      · exfalso
        have h2 := hacc.2
        rw [hl] at h2
        omega
    case isFalse hacc => exact h
  · rcases h with ⟨hl, ha⟩ | ⟨k, ha, hl, hlt⟩
    · exact Or.inl ⟨hl, ha⟩
    · exact Or.inr ⟨k, ha, hl, hlt⟩

theorem debounce_scanHands (rnd : Nat → ℚ) (now : Nat) (hands : List (ℚ × ℚ))
    (L : Nat) (A : List (Nat × Nat)) (acc : Acc)
    (h : (acc.st.lastKeyPressTime = L ∧ acc.accepted = A) ∨
      (∃ k, acc.accepted = A ++ [(now, k)] ∧
        acc.st.lastKeyPressTime = now ∧ L + debounceTime < now)) :
    ((scanHands rnd now hands acc).st.lastKeyPressTime = L ∧
      (scanHands rnd now hands acc).accepted = A) ∨
    (∃ k, (scanHands rnd now hands acc).accepted = A ++ [(now, k)] ∧
      (scanHands rnd now hands acc).st.lastKeyPressTime = now ∧
      L + debounceTime < now) :=
  foldl_preserve
    (fun a => (a.st.lastKeyPressTime = L ∧ a.accepted = A) ∨
      (∃ k, a.accepted = A ++ [(now, k)] ∧
        a.st.lastKeyPressTime = now ∧ L + debounceTime < now))
    (fun pt a => scanHand rnd now pt a)
    (fun pt a ha =>
      foldl_preserve _ (fun j a => stepKey rnd now pt j a)
        (fun j a hj => debounce_stepKey rnd now pt j L A a hj)
        (List.range numKeys) a ha)
    hands acc h

theorem drawFrame_debounce (rnd : Nat → ℚ) (now : Nat)
    (hands : List (ℚ × ℚ)) (s : GameState) :
    ((drawFrame rnd now hands s).accepted = [] ∧
      (drawFrame rnd now hands s).state.lastKeyPressTime =
        s.lastKeyPressTime) ∨
    (∃ k, (drawFrame rnd now hands s).accepted = [(now, k)] ∧
      (drawFrame rnd now hands s).state.lastKeyPressTime = now ∧
      s.lastKeyPressTime + debounceTime < now) := by
  unfold drawFrame
  by_cases hmsg : s.message ≠ ""
  · rw [if_pos hmsg]
    exact Or.inl ⟨rfl, rfl⟩
  · rw [if_neg hmsg]
    rcases debounce_scanHands rnd now hands s.lastKeyPressTime []
        ⟨s, [], [], []⟩ (Or.inl ⟨rfl, rfl⟩) with ⟨hl, ha⟩ | ⟨k, ha, hl, hlt⟩
    · exact Or.inl ⟨ha, hl⟩
    · exact Or.inr ⟨k, by simpa using ha, hl, hlt⟩

theorem runAccepted_lower (fs : List FrameInput) :
    ∀ (s : GameState) (X : Nat), X ≤ s.lastKeyPressTime →
      ∀ e ∈ runAccepted s fs, X + debounceTime < e.1 := by
  induction fs with
  | nil =>
      intro s X hX e he
      simp [runAccepted] at he
  | cons f fs ih =>
      intro s X hX e he
      rcases List.mem_append.mp he with h1 | h2
      · rcases drawFrame_debounce f.rnd f.now f.hands s with ⟨ha, hl⟩ |
          ⟨k, ha, hl, hlt⟩
        · rw [ha] at h1; simp at h1
        · rw [ha] at h1
          simp at h1
          rw [h1]
          omega
      · rcases drawFrame_debounce f.rnd f.now f.hands s with ⟨ha, hl⟩ |
          ⟨k, ha, hl, hlt⟩
        · exact ih _ X (by rw [hl]; exact hX) e h2
        · exact ih _ X (by rw [hl]; omega) e h2

/-- C5: along any run of frames, any two accepted presses — in the same
frame or different frames, on the same key or different keys — are more
than `debounceTime` (500 ms) apart; equivalently, of any two
fingertip-containment press events within `debounceTime` of each other at
most one is accepted, because `lastKeyPressTime` is shared by all keys. -/
theorem claim5_global_debounce (s : GameState) (fs : List FrameInput) :
    List.Pairwise (fun e1 e2 => e1.1 + debounceTime < e2.1)
      (runAccepted s fs) := by
  induction fs generalizing s with
  | nil => simp [runAccepted]
  | cons f fs ih =>
      simp only [runAccepted]
      rw [List.pairwise_append]
      refine ⟨?_, ih _, ?_⟩
      · rcases drawFrame_debounce f.rnd f.now f.hands s with ⟨ha, -⟩ |
          ⟨k, ha, -, -⟩ <;> simp [ha]
      · intro e1 h1 e2 h2
        rcases drawFrame_debounce f.rnd f.now f.hands s with ⟨ha, hl⟩ |
          ⟨k, ha, hl, hlt⟩
        · rw [ha] at h1; simp at h1
        · rw [ha] at h1
          simp at h1
          rw [h1]
          exact runAccepted_lower fs (drawFrame f.rnd f.now f.hands s).state
            f.now (by rw [hl]) e2 h2

end Sketch
